import Mathlib

/-!
Shallow embedding of `src/semantic_router/index/local.py`, the class
`LocalIndex`.  Vectors are lists of rationals; a 2-D numpy array is a
column count together with its list of rows (numpy keeps the column count
even when every row has been deleted, so an emptied index has shape
`(0, D)`, not `None`).  Each mutating method is a function from the state
of `self` to the state after the call paired with the exception raised, if
any: a method that raises mid-body still keeps the field assignments made
before the raise, exactly as in Python.  The module
`semantic_router.linear` (providing `similarity_matrix` and `top_scores`)
is not in the source tree; those two functions are modelled from the spec.

One Python 3 scoping fact drives the behaviour of `delete`: the loop
variable `i` of the comprehension that builds `delete_idx` does not leak
out of that comprehension, so the final line
`[utterance for utterance in self.utterances if self.routes[i] != route_name]`
evaluates an undefined name `i` and raises `NameError` as soon as the old
`self.utterances` is non-empty — after `self.index` and `self.routes` have
already been reassigned.
-/

/-- Python exceptions that the methods of `LocalIndex` can raise.  Each
constructor stands for one concrete raise site or library error; the doc
comments give the Python exception and message. -/
inductive PyError where
  /-- Python ValueError with message "Index is not populated.", raised at
  the top of `query` when `self.index is None`. -/
  | valueErrorIndexNotPopulated
  /-- Python ValueError with message "Routes are not populated.", raised at
  the top of `delete` when `self.routes is None`. -/
  | valueErrorRoutesNotPopulated
  /-- Python ValueError raised by `np.vstack` when the new vector has a
  length different from the number of columns of the stored matrix. -/
  | valueErrorShapeMismatch
  /-- Python NameError (the name i is not defined) raised by the utterance
  filter on the last line of `delete`. -/
  | nameErrorUndefinedI
  /-- Python TypeError from iterating or zipping a `None` value. -/
  | typeErrorNoneNotIterable
  /-- Python TypeError from subscripting a `None` value. -/
  | typeErrorNoneNotSubscriptable
  /-- Python IndexError from a list subscript that is out of range. -/
  | indexErrorOutOfRange
  /-- Python AttributeError from calling `.append` on a `None` value. -/
  | attributeErrorNoneAppend
  /-- numpy AxisError from `np.delete(None, _, axis=0)`. -/
  | axisErrorNone
  deriving DecidableEq, Repr

/-- A 2-D numpy array of rationals: the column count plus the list of rows.
The column count is a separate field because numpy keeps the second shape
component even when all rows are deleted (shape `(0, D)`). -/
structure NpMatrix where
  ncols : Nat
  rows : List (List ℚ)
  deriving DecidableEq, Repr

/-- numpy `vector.reshape(1, -1)`: a 1-D vector becomes a one-row matrix. -/
def npReshapeRow (v : List ℚ) : NpMatrix := ⟨v.length, [v]⟩

/-- numpy `np.vstack([m, v])`: append `v` as a new row; raises ValueError
when the length of `v` differs from the column count of `m`. -/
def npVstack (m : NpMatrix) (v : List ℚ) : Except PyError NpMatrix :=
  if v.length = m.ncols then .ok ⟨m.ncols, m.rows ++ [v]⟩
  else .error .valueErrorShapeMismatch

/-- numpy `np.delete(m, idxs, axis=0)`: drop the rows whose position is in
`idxs`.  (numpy raises IndexError on an out-of-range index; the only call
site, `LocalIndex.delete`, passes indices produced by
`enumerate(self.routes)`, which are in range in every state reachable from
a fresh index, so that case is not modelled.) -/
def npDeleteRows (m : NpMatrix) (idxs : List Nat) : NpMatrix :=
  ⟨m.ncols, (m.rows.enum.filter (fun p => decide (p.1 ∉ idxs))).map Prod.snd⟩

/-- The three fields of a `LocalIndex` object: `self.index`, `self.routes`,
`self.utterances`, each of which is `None` or a populated value. -/
structure LocalIndex where
  index : Option NpMatrix
  routes : Option (List String)
  utterances : Option (List String)
  deriving DecidableEq, Repr

/-- `LocalIndex()`: the constructor with all three arguments left at their
`None` defaults. -/
def LocalIndex.fresh : LocalIndex := ⟨none, none, none⟩

/-- `LocalIndex.add(route, utterance, vector)`.  Returns the state of
`self` after the call and the exception raised, if any.  When
`self.index is None` the three fields are initialized from the single new
entry.  Otherwise `self.index = np.vstack([self.index, vector])` runs
first (a shape mismatch raises there, before any field changes), then
`self.routes.append(route)`, then `self.utterances.append(utterance)`;
a `None` routes or utterances field raises AttributeError at its own
append, keeping the assignments already made. -/
def LocalIndex.add (s : LocalIndex) (route utterance : String)
    (vector : List ℚ) : LocalIndex × Option PyError :=
  match s.index with
  | none =>
    ({ index := some (npReshapeRow vector),
       routes := some [route],
       utterances := some [utterance] }, none)
  | some m =>
    match npVstack m vector with
    | .error e => (s, some e)
    | .ok m2 =>
      let s1 := { s with index := some m2 }
      match s.routes with
      | none => (s1, some .attributeErrorNoneAppend)
      | some rs =>
        let s2 := { s1 with routes := some (rs ++ [route]) }
        match s.utterances with
        | none => (s2, some .attributeErrorNoneAppend)
        | some us => ({ s2 with utterances := some (us ++ [utterance]) }, none)

/-- `LocalIndex.get_routes()`: `list(zip(self.routes, self.utterances))`.
`zip` raises TypeError as soon as one of its arguments is `None`. -/
def LocalIndex.get_routes (s : LocalIndex) :
    Except PyError (List (String × String)) :=
  match s.routes, s.utterances with
  | some rs, some us => .ok (rs.zip us)
  | _, _ => .error .typeErrorNoneNotIterable

/-- The dictionary returned by `LocalIndex.describe()`. -/
structure DescribeResult where
  type : String
  dimensions : Nat
  vectors : Nat
  deriving DecidableEq, Repr

/-- `LocalIndex.describe()`: type "local", `self.index.shape[1]` and
`self.index.shape[0]` when `self.index is not None`, else 0 and 0. -/
def LocalIndex.describe (s : LocalIndex) : DescribeResult :=
  match s.index with
  | some m => ⟨"local", m.ncols, m.rows.length⟩
  | none => ⟨"local", 0, 0⟩

/-- Dot product of two vectors (zipWith multiply, then sum). -/
def dotProduct (q r : List ℚ) : ℚ := (List.zipWith (fun a b => a * b) q r).sum

/-- Modelled from the spec: the module `semantic_router.linear` is missing
from the source tree.  `similarity_matrix(query, corpus)` computes the
pairwise similarity scores between the query vector and every stored
corpus row; the spec (sections 1 and 2) prescribes brute-force cosine/dot
similarity, modelled here as the dot product of the query with each row. -/
def similarity_matrix (q : List ℚ) (m : NpMatrix) : List ℚ :=
  m.rows.map (fun r => dotProduct q r)

/-- Ranking order on (position, score) pairs used by `top_scores`: a pair
ranks before another when its score is higher, ties broken by the smaller
corpus position (stable by index order, as the spec recommends). -/
def rankLE (a b : Nat × ℚ) : Prop :=
  b.2 < a.2 ∨ (a.2 = b.2 ∧ a.1 ≤ b.1)

instance : DecidableRel rankLE := fun a b => by
  unfold rankLE; infer_instance

instance : IsTotal (Nat × ℚ) rankLE := ⟨by
  intro a b
  rcases lt_trichotomy a.2 b.2 with h | h | h
  · exact .inr (.inl h)
  · rcases Nat.le_total a.1 b.1 with h2 | h2
    · exact .inl (.inr ⟨h, h2⟩)
    · exact .inr (.inr ⟨h.symm, h2⟩)
  · exact .inl (.inl h)⟩

instance : IsTrans (Nat × ℚ) rankLE := ⟨by
  intro a b c hab hbc
  rcases hab with h1 | ⟨h1, h1i⟩ <;> rcases hbc with h2 | ⟨h2, h2i⟩
  · exact .inl (h2.trans h1)
  · exact .inl (h2 ▸ h1)
  · exact .inl (lt_of_lt_of_le h2 (le_of_eq h1.symm))
  · exact .inr ⟨h1.trans h2, h1i.trans h2i⟩⟩

/-- Modelled from the spec: the module `semantic_router.linear` is missing
from the source tree.  `top_scores(matrix, k)` extracts the `k` highest
scores and their positions from the similarity scores, in descending score
order with ties stable by index order, clamped to the available count when
`k` exceeds it (spec sections 2 and 4.1). -/
def top_scores (sim : List ℚ) (k : Nat) : List ℚ × List Nat :=
  let taken := (List.insertionSort rankLE sim.enum).take k
  (taken.map Prod.snd, taken.map Prod.fst)

/-- A Python subscript `o[i]` where `o` is `self.routes`: TypeError when it
is `None`, IndexError when `i` is out of range. -/
def pySubscript (o : Option (List String)) (i : Nat) : Except PyError String :=
  match o with
  | none => .error .typeErrorNoneNotSubscriptable
  | some rs =>
    match rs[i]? with
    | some r => .ok r
    | none => .error .indexErrorOutOfRange

/-- The comprehension `[self.routes[i] for i in indices]`: subscripts are
evaluated left to right and the first failure raises; an empty `indices`
never touches `self.routes`. -/
def subscriptAll (o : Option (List String)) : List Nat → Except PyError (List String)
  | [] => .ok []
  | i :: is =>
    match pySubscript o i with
    | .error e => .error e
    | .ok r =>
      match subscriptAll o is with
      | .error e => .error e
      | .ok rest2 => .ok (r :: rest2)

/-- `LocalIndex.query(query_vector, top_k)`: raises ValueError when
`self.index is None`; otherwise computes the similarity scores, takes the
top `top_k` of them, and maps the selected positions through
`self.routes[i]`. -/
def LocalIndex.query (s : LocalIndex) (q : List ℚ) (top_k : Nat) :
    Except PyError (List ℚ × List String) :=
  match s.index with
  | none => .error .valueErrorIndexNotPopulated
  | some m =>
    let p := top_scores (similarity_matrix q m) top_k
    match subscriptAll s.routes p.2 with
    | .ok routes => .ok (p.1, routes)
    | .error e => .error e

/-- The `query` method as a state transformer: its body contains no
assignment to any field of `self`, so the post-state is the pre-state. -/
def LocalIndex.queryStep (s : LocalIndex) (q : List ℚ) (top_k : Nat) :
    LocalIndex × Except PyError (List ℚ × List String) :=
  (s, s.query q top_k)

/-- `LocalIndex.delete(route_name)`.  Raises ValueError when
`self.routes is None`.  Otherwise `delete_idx` collects the positions of
the matching routes, `self.index = np.delete(self.index, delete_idx,
axis=0)` drops those rows, and `self.routes` is reassigned to the
non-matching routes.  The final line then filters `self.utterances` with
the condition `self.routes[i] != route_name` in which `i` is an undefined
name (the comprehension variable of `delete_idx` does not leak in
Python 3): with a non-empty old `self.utterances` the condition is
evaluated and raises NameError, leaving `self.utterances` unchanged while
`self.index` and `self.routes` keep their new values; with an empty old
`self.utterances` the condition is never evaluated and the empty list is
assigned. -/
def LocalIndex.delete (s : LocalIndex) (route_name : String) :
    LocalIndex × Option PyError :=
  match s.routes with
  | none => (s, some .valueErrorRoutesNotPopulated)
  | some rs =>
    let delete_idx := (rs.enum.filter (fun p => p.2 == route_name)).map Prod.fst
    match s.index with
    | none => (s, some .axisErrorNone)
    | some m =>
      let s1 := { s with index := some (npDeleteRows m delete_idx) }
      let s2 := { s1 with routes := some (rs.filter (fun r => r != route_name)) }
      match s.utterances with
      | none => (s2, some .typeErrorNoneNotIterable)
      | some us =>
        match us with
        | [] => ({ s2 with utterances := some [] }, none)
        | _ :: _ => (s2, some .nameErrorUndefinedI)

/-- Run a list of `add` calls left to right, keeping only the resulting
states (for well-dimensioned adds no exception is ever raised). -/
def LocalIndex.addAll (s : LocalIndex)
    (entries : List (String × String × List ℚ)) : LocalIndex :=
  entries.foldl (fun t e => (t.add e.1 e.2.1 e.2.2).1) s

deriving instance DecidableEq for Except

/-- A one-entry index: `add("a", "u", [1.0])` on a fresh index. -/
def idxA : LocalIndex := (LocalIndex.fresh.add "a" "u" [1]).1

/-- Two entries: `add("a", "u1", [1.0])` then `add("b", "u2", [2.0])`. -/
def idxAB : LocalIndex :=
  LocalIndex.fresh.addAll [("a", "u1", [1]), ("b", "u2", [2])]

/-- Three entries whose routes are a, b, a — the delete scenario of the
spec (P6). -/
def idxABA : LocalIndex :=
  LocalIndex.fresh.addAll [("a", "u1", [1, 0]), ("b", "u2", [0, 1]), ("a", "u3", [1, 1])]

/-- The concrete query scenario of the spec: greet/hello `[1, 0]`,
greet/hi `[0.9, 0.1]`, bye/goodbye `[0, 1]`. -/
def idxGreet : LocalIndex := LocalIndex.fresh.addAll
  [("greet", "hello", [1, 0]), ("greet", "hi", [9/10, 1/10]), ("bye", "goodbye", [0, 1])]

/-- C1: the spec requires `len(vectors) == len(routes) == len(utterances)`
after every `add`/`delete` call, but after `add("a", "u", [1.0])` followed
by `delete("a")` the code leaves 0 rows, 0 routes and 1 utterance: the
utterance filter on the last line of `delete` references the undefined
name `i`, raising NameError after `self.index` and `self.routes` were
already reassigned, so `self.utterances` is never filtered. -/
theorem C1_delete_breaks_alignment :
    ((idxA.delete "a").1).routes = some [] ∧
    ((idxA.delete "a").1).utterances = some ["u"] ∧
    ((idxA.delete "a").1).index = some ⟨1, []⟩ ∧
    (idxA.delete "a").2 = some PyError.nameErrorUndefinedI := by
  with_unfolding_all decide

/-- C2: after adding routes a, b, a and calling `delete("a")`, the claim
expects one remaining entry in all three sequences; the code filters
`index` (one row left) and `routes` (only b left) and `describe` reports
1 vector, but the call raises NameError and all three utterances stay. -/
theorem C2_delete_scenario :
    (idxABA.delete "a").2 = some PyError.nameErrorUndefinedI ∧
    (idxABA.delete "a").1.routes = some ["b"] ∧
    (idxABA.delete "a").1.utterances = some ["u1", "u2", "u3"] ∧
    (idxABA.delete "a").1.index = some ⟨2, [[0, 1]]⟩ ∧
    (idxABA.delete "a").1.describe = ⟨"local", 2, 1⟩ := by
  with_unfolding_all decide

/-- C4: `delete("nonexistent")` on a populated index leaves the state
exactly unchanged (no row, route or utterance is dropped), but it is not
a successful no-op: the utterance filter still evaluates the undefined
name `i` and raises NameError. -/
theorem C4_delete_nonexistent_raises :
    (idxA.delete "nonexistent").1 = idxA ∧
    (idxA.delete "nonexistent").2 = some PyError.nameErrorUndefinedI := by
  with_unfolding_all decide

/-- C7: `get_routes` zips `self.routes` with `self.utterances`; after a
delete, routes were filtered but utterances were not (NameError before the
filter is assigned), so the remaining entry b — inserted with utterance
u2 — is returned paired with the deleted entry's utterance u1. -/
theorem C7_get_routes_misaligned_after_delete :
    idxAB.get_routes = .ok [("a", "u1"), ("b", "u2")] ∧
    ((idxAB.delete "a").1).get_routes = .ok [("b", "u1")] := by
  with_unfolding_all decide

/-- C9: on a never-populated index `self.routes` and `self.utterances` are
both `None`, and `list(zip(None, None))` raises TypeError instead of
returning an empty list. -/
theorem C9_get_routes_unpopulated_raises :
    LocalIndex.fresh.get_routes = .error PyError.typeErrorNoneNotIterable := rfl

/-- C10: the body of `query` contains no assignment to any field of
`self`, so the state after the call is the state before it, whatever the
result (including the raising cases). -/
theorem C10_query_readonly (s : LocalIndex) (q : List ℚ) (k : Nat) :
    (s.queryStep q k).1.index = s.index ∧
    (s.queryStep q k).1.routes = s.routes ∧
    (s.queryStep q k).1.utterances = s.utterances :=
  ⟨rfl, rfl, rfl⟩

/-- C3 counterexample: an index emptied by a prior delete has zero stored
entries (`index` a 0-row array, `routes == []`), yet `query` returns
`([], [])` instead of raising the not-populated ValueError, and a further
`delete` raises NameError, not the not-populated ValueError: both
not-populated checks test `is None`, not the entry count. -/
theorem C3_counterexample_emptied_index :
    ((idxA.delete "a").1).routes = some [] ∧
    ((idxA.delete "a").1).index = some ⟨1, []⟩ ∧
    ((idxA.delete "a").1).query [1] 5 = .ok ([], []) ∧
    (((idxA.delete "a").1).delete "b").2 = some PyError.nameErrorUndefinedI := by
  with_unfolding_all decide

/-- C8 counterexample: `add("a", "u", [1.0, 0.0])` then `delete("a")`
leaves `self.index` as a 0-row array of 2 columns, so `describe()` reports
`vectors == 0` but `dimensions == 2`, not the claimed dimension reset
to 0. -/
theorem C8_counterexample_dimension_not_reset :
    (((LocalIndex.fresh.add "a" "u" [1, 0]).1.delete "a").1).describe
      = ⟨"local", 2, 0⟩ ∧
    (((LocalIndex.fresh.add "a" "u" [1, 0]).1.delete "a").1).describe
      ≠ ⟨"local", 0, 0⟩ := by
  with_unfolding_all decide

theorem pySubscript_error_cases (o : Option (List String)) (i : Nat)
    (e : PyError) (h : pySubscript o i = .error e) :
    e = PyError.typeErrorNoneNotSubscriptable ∨ e = PyError.indexErrorOutOfRange := by
  cases o with
  | none => simp [pySubscript] at h; exact .inl h.symm
  | some rs =>
    cases hg : rs[i]? with
    | none => simp [pySubscript, hg] at h; exact .inr h.symm
    | some r => simp [pySubscript, hg] at h

theorem subscriptAll_error_cases (o : Option (List String)) :
    ∀ (idxs : List Nat) (e : PyError), subscriptAll o idxs = .error e →
      e = PyError.typeErrorNoneNotSubscriptable ∨ e = PyError.indexErrorOutOfRange := by
  intro idxs
  induction idxs with
  | nil => intro e h; simp [subscriptAll] at h
  | cons i is ih =>
    intro e h
    unfold subscriptAll at h
    cases h1 : pySubscript o i with
    | error e1 =>
      rw [h1] at h
      simp at h
      exact h ▸ pySubscript_error_cases o i e1 h1
    | ok r =>
      rw [h1] at h
      cases h2 : subscriptAll o is with
      | error e2 =>
        rw [h2] at h
        simp at h
        exact h ▸ ih e2 h2
      | ok rest2 => rw [h2] at h; simp at h

/-- Unfolding of `query` on a populated index. -/
theorem query_some (s : LocalIndex) (m : NpMatrix) (hI : s.index = some m)
    (q : List ℚ) (k : Nat) :
    s.query q k =
      match subscriptAll s.routes (top_scores (similarity_matrix q m) k).2 with
      | .ok routes => .ok ((top_scores (similarity_matrix q m) k).1, routes)
      | .error e => .error e := by
  rw [LocalIndex.query, hI]

theorem C3_not_populated_iff_never_populated (s : LocalIndex) (q : List ℚ)
    (k : Nat) (r : String) :
    (s.query q k = .error PyError.valueErrorIndexNotPopulated ↔ s.index = none) ∧
    ((s.delete r).2 = some PyError.valueErrorRoutesNotPopulated ↔ s.routes = none) := by
  constructor
  · constructor
    · intro h
      cases hI : s.index with
      | none => rfl
      | some m =>
        exfalso
        rw [query_some s m hI q k] at h
        cases hsub : subscriptAll s.routes (top_scores (similarity_matrix q m) k).2 with
        | ok routes => rw [hsub] at h; simp at h
        | error e =>
          rw [hsub] at h
          simp at h
          rcases subscriptAll_error_cases s.routes _ e hsub with h2 | h2 <;> simp [h2] at h
    · intro h
      rw [LocalIndex.query, h]
  · cases hR : s.routes with
    | none => simp [LocalIndex.delete, hR]
    | some rs =>
      rw [LocalIndex.delete, hR]
      cases hI : s.index with
      | none => simp
      | some m =>
        cases hU : s.utterances with
        | none => simp
        | some us =>
          cases us with
          | nil => simp
          | cons u us2 => simp

/-- Helper: a well-dimensioned `add` on a populated index appends one row. -/
theorem add_index_eq (s : LocalIndex) (m : NpMatrix) (hI : s.index = some m)
    (r u : String) (v : List ℚ) (hv : v.length = m.ncols) :
    (s.add r u v).1.index = some ⟨m.ncols, m.rows ++ [v]⟩ := by
  rw [LocalIndex.add, hI]
  simp only [npVstack, if_pos hv]
  cases s.routes <;> cases s.utterances <;> rfl

/-- Helper: a run of well-dimensioned `add` calls on a populated index
appends one row per call and never changes the column count. -/
theorem addAll_index (entries : List (String × String × List ℚ)) :
    ∀ (s : LocalIndex) (m : NpMatrix), s.index = some m →
      (∀ e ∈ entries, e.2.2.length = m.ncols) →
      ∃ rows2 : List (List ℚ),
        (s.addAll entries).index = some ⟨m.ncols, m.rows ++ rows2⟩ ∧
        rows2.length = entries.length := by
  induction entries with
  | nil =>
    intro s m hI _
    exact ⟨[], by simpa [LocalIndex.addAll] using hI, rfl⟩
  | cons e es ih =>
    intro s m hI hd
    have hv : e.2.2.length = m.ncols := hd e (List.mem_cons_self e es)
    have hstep := add_index_eq s m hI e.1 e.2.1 e.2.2 hv
    have hd2 : ∀ e2 ∈ es, e2.2.2.length = (⟨m.ncols, m.rows ++ [e.2.2]⟩ : NpMatrix).ncols :=
      fun e2 he2 => hd e2 (List.mem_cons_of_mem e he2)
    obtain ⟨rows2, hidx, hlen⟩ :=
      ih ((s.add e.1 e.2.1 e.2.2).1) ⟨m.ncols, m.rows ++ [e.2.2]⟩ hstep hd2
    refine ⟨e.2.2 :: rows2, ?_, by simp [hlen]⟩
    have : (s.addAll (e :: es)) = ((s.add e.1 e.2.1 e.2.2).1).addAll es := rfl
    rw [this, hidx]
    simp

/-- C6: after N well-dimensioned adds of dimension D on a fresh index,
`describe()` reports type local, dimensions D and vectors N; a fresh index
reports dimensions 0 and vectors 0 (and `describe` is a pure read of the
state). -/
theorem C6_describe_after_adds (entries : List (String × String × List ℚ))
    (D : Nat) (hne : entries ≠ []) (hd : ∀ e ∈ entries, e.2.2.length = D) :
    (LocalIndex.fresh.addAll entries).describe = ⟨"local", D, entries.length⟩ ∧
    LocalIndex.fresh.describe = ⟨"local", 0, 0⟩ := by
  refine ⟨?_, rfl⟩
  cases entries with
  | nil => exact absurd rfl hne
  | cons e es =>
    have hv : e.2.2.length = D := hd e (List.mem_cons_self e es)
    have h0 : (LocalIndex.fresh.addAll (e :: es))
        = ((LocalIndex.fresh.add e.1 e.2.1 e.2.2).1).addAll es := rfl
    have h1 : ((LocalIndex.fresh.add e.1 e.2.1 e.2.2).1).index
        = some ⟨D, [e.2.2]⟩ := by
      simp [LocalIndex.add, LocalIndex.fresh, npReshapeRow, hv]
    obtain ⟨rows2, hidx, hlen⟩ := addAll_index es _ _ h1
      (fun e2 he2 => hd e2 (List.mem_cons_of_mem e he2))
    rw [h0]
    rw [LocalIndex.describe, hidx]
    simp [hlen]

/-- Witness for C6 at two entries of dimension 2. -/
theorem C6_describe_after_adds_witness :
    (LocalIndex.fresh.addAll [("a", "u", [1, 2]), ("b", "w", [3, 4])]).describe
      = ⟨"local", 2, 2⟩ ∧
    LocalIndex.fresh.describe = ⟨"local", 0, 0⟩ :=
  C6_describe_after_adds [("a", "u", [1, 2]), ("b", "w", [3, 4])] 2
    (by simp) (by intro e he; fin_cases he <;> rfl)

/-- Helper: `describe` on a populated index reads the matrix shape. -/
theorem describe_some (s : LocalIndex) (m : NpMatrix) (hI : s.index = some m) :
    s.describe = ⟨"local", m.ncols, m.rows.length⟩ := by
  rw [LocalIndex.describe, hI]

/-- Helper: on an index with populated routes and index fields, `delete`
leaves the new filtered matrix and routes in place in every branch
(whether or not the utterance filter then raises). -/
theorem delete_state (s : LocalIndex) (rs : List String) (m : NpMatrix)
    (r : String) (hR : s.routes = some rs) (hI : s.index = some m) :
    ((s.delete r).1).index =
      some (npDeleteRows m ((rs.enum.filter (fun p => p.2 == r)).map Prod.fst)) ∧
    ((s.delete r).1).routes = some (rs.filter (fun x => x != r)) := by
  rw [LocalIndex.delete, hR, hI]
  cases s.utterances with
  | none => simp
  | some us =>
    cases us with
    | nil => simp
    | cons u us2 => simp

/-- C8 corrected: when a delete matches every stored route, the stored
matrix drops to 0 rows but keeps its column count, so `describe()` then
reports `vectors = 0` while `dimensions` stays the established dimension
(it is not reset to 0). -/
theorem C8_delete_all_keeps_dimension (s : LocalIndex) (m : NpMatrix)
    (rs : List String) (r : String) (hI : s.index = some m)
    (hR : s.routes = some rs) (hlen : m.rows.length = rs.length)
    (hall : ∀ x ∈ rs, x = r) :
    ((s.delete r).1).describe = ⟨"local", m.ncols, 0⟩ := by
  obtain ⟨hidx, -⟩ := delete_state s rs m r hR hI
  have hnil : (m.rows.enum.filter
      (fun p => decide (p.1 ∉ (rs.enum.filter (fun p => p.2 == r)).map Prod.fst))) = [] := by
    apply List.filter_eq_nil_iff.mpr
    intro p hp
    have hp1 : m.rows[p.1]? = some p.2 := List.mem_enum_iff_getElem?.mp hp
    have hlt : p.1 < m.rows.length := (List.getElem?_eq_some_iff.mp hp1).1
    have hlt2 : p.1 < rs.length := hlen ▸ hlt
    have hget : rs[p.1]? = some (rs.get ⟨p.1, hlt2⟩) := List.getElem?_eq_getElem hlt2
    have hxr : rs.get ⟨p.1, hlt2⟩ = r := hall _ (List.getElem_mem hlt2)
    have henum : (p.1, rs.get ⟨p.1, hlt2⟩) ∈ rs.enum :=
      List.mem_enum_iff_getElem?.mpr hget
    have hfil : (p.1, rs.get ⟨p.1, hlt2⟩) ∈ rs.enum.filter (fun p => p.2 == r) :=
      List.mem_filter.mpr ⟨henum, by simp only [beq_iff_eq]; exact hxr⟩
    have hmem : p.1 ∈ (rs.enum.filter (fun p => p.2 == r)).map Prod.fst :=
      List.mem_map.mpr ⟨(p.1, rs.get ⟨p.1, hlt2⟩), hfil, rfl⟩
    simp [hmem]
  rw [describe_some _ _ hidx]
  dsimp only [npDeleteRows]
  rw [hnil]
  rfl

/-- Witness for C8 at a single 2-dimensional entry deleted again. -/
theorem C8_delete_all_keeps_dimension_witness :
    (((LocalIndex.fresh.add "a" "u" [1, 0]).1.delete "a").1).describe
      = ⟨"local", 2, 0⟩ :=
  C8_delete_all_keeps_dimension _ ⟨2, [[1, 0]]⟩ ["a"] "a"
    (by with_unfolding_all decide) (by with_unfolding_all decide) rfl (by decide)

/-- Helper: when every index is in range, the route-lookup comprehension
succeeds and looks each position up in the routes list. -/
theorem subscriptAll_ok (rs : List String) :
    ∀ idxs : List Nat, (∀ i ∈ idxs, i < rs.length) →
      ∃ out, subscriptAll (some rs) idxs = .ok out ∧
        out.length = idxs.length ∧
        ∀ (j i : Nat), idxs[j]? = some i → out[j]? = rs[i]? := by
  intro idxs
  induction idxs with
  | nil => intro _; exact ⟨[], rfl, rfl, by intro j i h; simp at h⟩
  | cons a l ih =>
    intro hb
    have ha : a < rs.length := hb a (List.mem_cons_self a l)
    obtain ⟨out, hout, hlen, hget⟩ := ih (fun i hi => hb i (List.mem_cons_of_mem a hi))
    have hsub : pySubscript (some rs) a = .ok (rs.get ⟨a, ha⟩) := by
      simp [pySubscript, List.getElem?_eq_getElem ha]
    refine ⟨rs.get ⟨a, ha⟩ :: out, ?_, by simp [hlen], ?_⟩
    · unfold subscriptAll
      rw [hsub, hout]
    · intro j i h
      cases j with
      | zero =>
        simp at h
        subst h
        simp [List.getElem?_eq_getElem ha]
      | succ j2 =>
        simp at h
        simpa using hget j2 i h

/-- Helper: what `top_scores` (modelled from the spec) returns: the scores
in descending order, paired positionally with in-range corpus positions
achieving them; the selection is a permutation-complement of the score
list in which everything left out is bounded by everything selected. -/
theorem top_scores_spec (sim : List ℚ) (k : Nat) :
    ∃ (scores : List ℚ) (idxs : List Nat) (rest : List ℚ),
      top_scores sim k = (scores, idxs) ∧
      scores.Sorted (fun a b => a ≥ b) ∧
      idxs.length = scores.length ∧
      scores.length = min k sim.length ∧
      (∀ i ∈ idxs, i < sim.length) ∧
      (∀ (j : Nat) (x : ℚ), scores[j]? = some x →
        ∃ i : Nat, idxs[j]? = some i ∧ sim[i]? = some x) ∧
      (scores ++ rest).Perm sim ∧
      (∀ x ∈ rest, ∀ y ∈ scores, x ≤ y) := by
  have hperm : (List.insertionSort rankLE sim.enum).Perm sim.enum :=
    List.perm_insertionSort rankLE sim.enum
  have hsorted : List.Pairwise rankLE (List.insertionSort rankLE sim.enum) :=
    List.sorted_insertionSort rankLE sim.enum
  have hmemr : ∀ p ∈ List.insertionSort rankLE sim.enum, sim[p.1]? = some p.2 :=
    fun p hp => List.mem_enum_iff_getElem?.mp (hperm.mem_iff.mp hp)
  refine ⟨((List.insertionSort rankLE sim.enum).take k).map Prod.snd,
          ((List.insertionSort rankLE sim.enum).take k).map Prod.fst,
          ((List.insertionSort rankLE sim.enum).drop k).map Prod.snd,
          rfl, ?_, by simp, ?_, ?_, ?_, ?_, ?_⟩
  · have htake : List.Pairwise rankLE ((List.insertionSort rankLE sim.enum).take k) :=
      List.Pairwise.sublist (List.take_sublist k _) hsorted
    exact List.pairwise_map.mpr (htake.imp (fun hab => by
      rcases hab with h | ⟨h, _⟩
      · exact le_of_lt h
      · exact h.ge))
  · simp [List.length_take, hperm.length_eq]
  · intro i hi
    obtain ⟨p, hp, rfl⟩ := List.mem_map.mp hi
    exact (List.getElem?_eq_some_iff.mp (hmemr p (List.mem_of_mem_take hp))).1
  · intro j x hj
    rw [List.getElem?_map] at hj
    obtain ⟨p, hp, rfl⟩ := Option.map_eq_some'.mp hj
    refine ⟨p.1, by rw [List.getElem?_map, hp]; rfl, ?_⟩
    exact hmemr p (List.mem_of_mem_take (List.getElem?_mem hp))
  · rw [← List.map_append, List.take_append_drop]
    have h2 := hperm.map Prod.snd
    rwa [List.enum_map_snd] at h2
  · have hsplit := hsorted
    rw [← List.take_append_drop k (List.insertionSort rankLE sim.enum)] at hsplit
    obtain ⟨-, -, hcross⟩ := List.pairwise_append.mp hsplit
    intro x hx y hy
    obtain ⟨pb, hpb, rfl⟩ := List.mem_map.mp hx
    obtain ⟨pa, hpa, rfl⟩ := List.mem_map.mp hy
    rcases hcross pa hpa pb hpb with h | ⟨h, _⟩
    · exact le_of_lt h
    · exact h.ge

/-- C5: on any populated index, `query` succeeds and returns the top_k
highest similarity scores in descending order, each paired positionally
with the route label of a corpus entry achieving that score; every score
not selected is bounded by every selected one; and on the concrete spec
scenario (greet [1,0], greet [0.9,0.1], bye [0,1]) `query([1,0], top_k=2)`
returns both greet routes with descending scores 1, 0.9. -/
theorem C5_query_top_k :
    (∀ (s : LocalIndex) (m : NpMatrix) (rs : List String) (q : List ℚ) (k : Nat),
      s.index = some m → s.routes = some rs → m.rows.length = rs.length →
      ∃ (scores : List ℚ) (rts : List String) (rest : List ℚ),
        s.query q k = .ok (scores, rts) ∧
        scores.Sorted (fun a b => a ≥ b) ∧
        rts.length = scores.length ∧
        scores.length = min k rs.length ∧
        (∀ (j : Nat) (score : ℚ), scores[j]? = some score →
          ∃ (i : Nat) (row : List ℚ), m.rows[i]? = some row ∧
            score = dotProduct q row ∧ rts[j]? = rs[i]?) ∧
        (scores ++ rest).Perm (similarity_matrix q m) ∧
        (∀ x ∈ rest, ∀ y ∈ scores, x ≤ y)) ∧
    idxGreet.query [1, 0] 2 = .ok ([1, 9/10], ["greet", "greet"]) ∧
    (1 : ℚ) ≥ 9/10 := by
  refine ⟨?_, by with_unfolding_all decide, by with_unfolding_all decide⟩
  intro s m rs q k hI hR hlen
  obtain ⟨scores, idxs, rest, htop, hsortd, hlen1, hlen2, hinb, hcorr, hperm2, hrest⟩ :=
    top_scores_spec (similarity_matrix q m) k
  have hsimlen : (similarity_matrix q m).length = rs.length := by
    simpa [similarity_matrix] using hlen
  have hinb2 : ∀ i ∈ idxs, i < rs.length := fun i hi => hsimlen ▸ hinb i hi
  obtain ⟨out, hout, houtlen, houtget⟩ := subscriptAll_ok rs idxs hinb2
  refine ⟨scores, out, rest, ?_, hsortd, by rw [houtlen, hlen1],
    by rw [hlen2, hsimlen], ?_, hperm2, hrest⟩
  · rw [query_some s m hI q k, htop, hR]
    dsimp only
    rw [hout]
  · intro j score hj
    obtain ⟨i, hij, hsimi⟩ := hcorr j score hj
    rw [similarity_matrix, List.getElem?_map] at hsimi
    obtain ⟨row, hrow, hdot⟩ := Option.map_eq_some'.mp hsimi
    exact ⟨i, row, hrow, hdot.symm, houtget j i hij⟩

/-- Witness for C3 on a fresh (never-populated) index: both not-populated
ValueErrors are raised there. -/
theorem C3_not_populated_iff_never_populated_witness :
    LocalIndex.fresh.query [1] 5 = .error PyError.valueErrorIndexNotPopulated ∧
    (LocalIndex.fresh.delete "a").2 = some PyError.valueErrorRoutesNotPopulated :=
  ⟨(C3_not_populated_iff_never_populated LocalIndex.fresh [1] 5 "a").1.mpr rfl,
   (C3_not_populated_iff_never_populated LocalIndex.fresh [1] 5 "a").2.mpr rfl⟩

/-- Witness for C5 on the concrete greet/bye scenario. -/
theorem C5_query_top_k_witness :
    ∃ (scores : List ℚ) (rts : List String) (rest : List ℚ),
      idxGreet.query [1, 0] 2 = .ok (scores, rts) ∧
      scores.Sorted (fun a b => a ≥ b) ∧
      rts.length = scores.length ∧
      scores.length = min 2 (["greet", "greet", "bye"] : List String).length ∧
      (∀ (j : Nat) (score : ℚ), scores[j]? = some score →
        ∃ (i : Nat) (row : List ℚ),
          (⟨2, [[1, 0], [9/10, 1/10], [0, 1]]⟩ : NpMatrix).rows[i]? = some row ∧
          score = dotProduct [1, 0] row ∧
          rts[j]? = (["greet", "greet", "bye"] : List String)[i]?) ∧
      (scores ++ rest).Perm
        (similarity_matrix [1, 0] ⟨2, [[1, 0], [9/10, 1/10], [0, 1]]⟩) ∧
      (∀ x ∈ rest, ∀ y ∈ scores, x ≤ y) :=
  C5_query_top_k.1 idxGreet ⟨2, [[1, 0], [9/10, 1/10], [0, 1]]⟩
    ["greet", "greet", "bye"] [1, 0] 2
    (by with_unfolding_all decide) (by with_unfolding_all decide) rfl
